import Mathlib

/-!
Verification of the ralph2 agentic build orchestrator against its
natural-language specification.  JavaScript strings are embedded as
`List Char`; stateful pipeline steps are embedded as explicit state-passing
functions; external effects (LLM calls, the filesystem, subprocesses) are
oracles passed in as parameters.
-/

set_option maxRecDepth 4000

/-! ## Shared string helpers (JS string operations over `List Char`) -/

/-- JS `String.prototype.trim` over a char list (ASCII whitespace). -/
def trimChars (l : List Char) : List Char :=
  ((l.dropWhile Char.isWhitespace).reverse.dropWhile Char.isWhitespace).reverse

/-- JS `String.prototype.includes`: the needle occurs as a contiguous
substring of the haystack. -/
def includesSub (needle : List Char) : List Char → Bool
  | [] => needle.isPrefixOf []
  | c :: rest => needle.isPrefixOf (c :: rest) || includesSub needle rest

/-! ## C1 — `runCodex` file-block application (src/utils/codexUtils.js 83-104)

`path.resolve(workingDir, p)` is embedded component-wise: split on `/`,
drop empty and `.` components, let `..` pop the previous component, and
re-render as an absolute path.  The containment check is the literal
`absolutePath.startsWith(path.resolve(workingDir))` string-prefix test
from the source. -/

/-- Split a path string on `/` (the component list of a path). -/
def splitPath (p : List Char) : List (List Char) :=
  p.splitOn '/'

/-- Normalisation performed by node `path.resolve`: empty and `.`
components vanish, `..` removes the previous component. -/
def normComponents (comps : List (List Char)) : List (List Char) :=
  comps.foldl
    (fun acc c =>
      if c = ([] : List Char) ∨ c = ['.'] then acc
      else if c = ['.', '.'] then acc.dropLast
      else acc ++ [c])
    []

/-- Render a normalised component list as an absolute path string. -/
def renderAbs (comps : List (List Char)) : List Char :=
  '/' :: List.intercalate ['/'] comps

/-- node `path.resolve(wd, p)` for an absolute `wd`. -/
def resolvePath (wd p : List Char) : List Char :=
  if p.head? = some '/' then renderAbs (normComponents (splitPath p))
  else renderAbs (normComponents (splitPath wd ++ splitPath p))

/-- node `path.resolve(wd)` for an absolute `wd`. -/
def resolveOne (wd : List Char) : List Char :=
  renderAbs (normComponents (splitPath wd))

/-- The write loop of `runCodex`: for each extracted file block
`(path, content)` the path is trimmed, resolved against the working
directory, checked with the `startsWith` guard from the source, and either
written (collected) or skipped.  Returns the writes actually performed,
as pairs of absolute path and content, in order. -/
def applyBlocks (wd : List Char) (blocks : List (List Char × List Char)) :
    List (List Char × List Char) :=
  blocks.foldl
    (fun acc b =>
      let fp := trimChars b.1
      let absolutePath := resolvePath wd fp
      if (resolveOne wd).isPrefixOf absolutePath then acc ++ [(absolutePath, b.2)]
      else acc)
    []

/-- The containment property the spec demands: the written path is the root
itself or lies strictly below it (root followed by a path separator). -/
def withinRoot (root p : List Char) : Bool :=
  (root ++ ['/']).isPrefixOf p || p = root

/-! ## C2 / C7 — failure path of `runLoop` (src/orchestrator.js 289-331)

The failure branch mutates per-run state (`retryCount`, `lastError`, the
story flags, `isRunning`), performs side effects (lesson save, plan
persistence, rollback, store status write) and decides how the loop
proceeds.  Side effects are recorded as an action list; the loop decision
is a `LoopControl` value. -/

/-- Side effects performed by the failure branch, in order. -/
inductive FailAction
  | saveLesson (err : List Char)
  | persistPlanDisk
  | persistPlanStore
  | rollback
  | saveStatusError
deriving DecidableEq

/-- How the loop proceeds after the failure branch. -/
inductive LoopControl
  | continueLoop
  | breakLoop
  | sleepRetry (ms : ℚ)
deriving DecidableEq

/-- The per-run mutable state touched by the failure branch. -/
structure FailState where
  retryCount : Nat
  lastError : Option (List Char)
  isSkipped : Bool
  skipReason : Option (List Char)
  isRunning : Bool
deriving DecidableEq

/-- src/orchestrator.js 325: the backoff sleep
`baseSleepTime * Math.pow(backoffMultiplier, retryCount - 1)`, with JS
numbers embedded as rationals. -/
def waitTime (base mult : ℚ) (retryCount : Nat) : ℚ :=
  base * mult ^ (retryCount - 1)

/-- src/orchestrator.js 289-329: the failure branch of one iteration.
`retryCount` is incremented and `lastError` set; a lesson is saved when
the feedback is longer than 20 chars (truncated to 500); at the retry
cap a non-critical story is skipped (flags set, counter reset, plan
persisted, loop continues) while a critical one triggers rollback, a
store status write of error, and loop exit; below the cap the loop backs
off by `waitTime`. -/
def failureStep (maxRetriesPerTask : Nat) (base mult : ℚ)
    (priority feedback : List Char) (st : FailState) :
    FailState × LoopControl × List FailAction :=
  let rc := st.retryCount + 1
  let lessonActs : List FailAction :=
    if 20 < feedback.length then [FailAction.saveLesson (feedback.take 500)] else []
  if maxRetriesPerTask ≤ rc then
    if priority ≠ "critical".data then
      (⟨0, some feedback, true, some feedback, st.isRunning⟩, LoopControl.continueLoop,
        lessonActs ++ [FailAction.persistPlanDisk, FailAction.persistPlanStore])
    else
      (⟨rc, some feedback, st.isSkipped, st.skipReason, false⟩, LoopControl.breakLoop,
        lessonActs ++ [FailAction.rollback, FailAction.saveStatusError])
  else
    (⟨rc, some feedback, st.isSkipped, st.skipReason, st.isRunning⟩,
      LoopControl.sleepRetry (waitTime base mult rc), lessonActs)

/-! ## C4 — approval rendezvous (src/utils/dbUtils.js, TelegramManager)

`askForApproval` auto-passes when no bot or chat id is configured, or when
sending the two-button message fails; otherwise it stores the new promise
resolver in the single `approvalResolve` slot and suspends.  The
`approve_task` / `reject_task` button handlers call the stored resolver if
one is present.  Futures are named by numeric ids; resolutions actually
performed are recorded in `resolutions`. -/

/-- State of the TelegramManager approval rendezvous.  `approvalResolve`
holds the id of the future whose resolver is currently stored;
`resolutions` records every `(future, answer)` resolution performed. -/
structure OracleState where
  botConfigured : Bool
  nextId : Nat
  approvalResolve : Option Nat
  resolutions : List (Nat × Bool)
deriving DecidableEq

/-- Result of a call to `askForApproval`: either an immediate boolean
(auto-pass paths) or a suspended future. -/
inductive AskResult
  | immediate (b : Bool)
  | pending (id : Nat)
deriving DecidableEq

/-- `askForApproval(stage, task)`: auto-pass without a configured bot or
on send failure; otherwise create a fresh future and overwrite the
resolver slot with its resolver.  Nothing else is touched: in particular
no resolution is recorded for a previously stored resolver. -/
def askForApproval (sendOk : Bool) (s : OracleState) : OracleState × AskResult :=
  if s.botConfigured = false then (s, AskResult.immediate true)
  else if sendOk = false then (s, AskResult.immediate true)
  else ({ s with nextId := s.nextId + 1, approvalResolve := some s.nextId },
    AskResult.pending s.nextId)

/-- The `approve_task` / `reject_task` callback: resolve the stored
future, if any, with the given answer (the slot is not cleared). -/
def resolveAction (answer : Bool) (s : OracleState) : OracleState :=
  match s.approvalResolve with
  | some i => { s with resolutions := s.resolutions ++ [(i, answer)] }
  | none => s

/-! ## C3 — intra-iteration event ordering (src/orchestrator.js 229-288)

One iteration of `runLoop` after context preparation, as the sequence of
observable steps it performs, parameterised by the oracle decisions
(syntax gate verdict, reviewer configuration and verdict, developer
sentinel, chat configuration, human approval). -/

/-- Observable steps of one iteration. -/
inductive PipeEvent
  | fileWrites
  | syntaxGate
  | reviewerRun
  | approvalWait
  | planDiskWrite
  | storeUpdate
  | vcsCommit
deriving DecidableEq, BEq

/-- Validity after reviewer / sentinel / human approval, as computed at
src/orchestrator.js 253-276. -/
def finalValid (useReviewerAgent reviewerPasses devPromiseMet tgEnabled
    useHumanReview approvalGranted : Bool) : Bool :=
  let isValid := if useReviewerAgent then reviewerPasses else devPromiseMet
  if isValid && tgEnabled && useHumanReview then approvalGranted else isValid

/-- The ordered steps of one iteration: developer run (whose file writes
are applied inside the LLM client), syntax gate, the self-heal developer
run on a gate failure, reviewer run when enabled, approval wait when
reaching it, and on validity the plan disk write, then the store update,
then the VCS commit, exactly in source order (lines 278-285). -/
def iterationTrace (syntaxValid useReviewerAgent reviewerPasses devPromiseMet
    tgEnabled useHumanReview approvalGranted : Bool) : List PipeEvent :=
  let devEvents := [PipeEvent.fileWrites, PipeEvent.syntaxGate]
    ++ (if syntaxValid then [] else [PipeEvent.fileWrites])
  let revEvents := if useReviewerAgent then [PipeEvent.reviewerRun] else []
  let isValid := if useReviewerAgent then reviewerPasses else devPromiseMet
  let approvalEvents :=
    if isValid && tgEnabled && useHumanReview then [PipeEvent.approvalWait] else []
  let commitEvents :=
    if finalValid useReviewerAgent reviewerPasses devPromiseMet tgEnabled
        useHumanReview approvalGranted then
      [PipeEvent.planDiskWrite, PipeEvent.storeUpdate, PipeEvent.vcsCommit]
    else []
  devEvents ++ revEvents ++ approvalEvents ++ commitEvents

/-! ## C5 — self-healing syntax gate (src/orchestrator.js 232-251)

After the developer run, `validateSyntax` is consulted; on an invalid
verdict a fix prompt is built from the original developer prompt by a
template literal and the developer is invoked once more, its result
replacing `devResult`.  The LLM is an oracle from prompt to response; the
syntax verdict is an oracle value. -/

/-- Result of `validateSyntax` as consumed by the loop. -/
structure SynCheck where
  valid : Bool
  file : List Char
  error : List Char

/-- The SELF-HEALING block appended to the developer prompt by the fix
template (everything of the template after the interpolated prompt, minus
the outer newlines removed by trim). -/
def selfHealBlock (file err : List Char) : List Char :=
  "\n---\n⚠️ SELF-HEALING UPDATE:\nThe previous run introduced a syntax error in **".data
    ++ file ++ "**:\nError: ".data ++ err
    ++ "\n\nINSTRUCTION: Fix this syntax error immediately and complete the task.".data

/-- The fix prompt of src/orchestrator.js 241-249: the template literal
(newline, developer prompt, SELF-HEALING block, newline) followed by
`.trim()`. -/
def fixPrompt (devPrompt file err : List Char) : List Char :=
  trimChars ('\n' :: (devPrompt ++ selfHealBlock file err ++ ['\n']))

/-- Outcome of the developer phase of one iteration: the final
`devResult`, the developer prompts issued in order, and the retry
counter, which this phase never touches. -/
structure DevPhase where
  devResult : List Char
  prompts : List (List Char)
  retryCount : Nat

/-- src/orchestrator.js 232-251: run the developer, consult the syntax
gate, and on failure re-invoke the developer once with the fix prompt,
replacing `devResult`. -/
def devPhase (oracle : List Char → List Char) (syntaxCheck : SynCheck)
    (devPrompt : List Char) (retryCount : Nat) : DevPhase :=
  let devResult := oracle devPrompt
  if syntaxCheck.valid then ⟨devResult, [devPrompt], retryCount⟩
  else
    let fp := fixPrompt devPrompt syntaxCheck.file syntaxCheck.error
    ⟨oracle fp, [devPrompt, fp], retryCount⟩

/-! ## C8 — syntax gate (src/orchestrator.js 631-649)

`validateSyntax` enumerates files under the root (an oracle that may
fail, modelling `listFilesRecursive`), filters to `.js` files outside
`node_modules`, and runs `node --check` (an oracle from file to
success-or-error) on each in order.  The per-file `try/catch` turns any
checker error — syntax error or missing tooling alike — into
`{valid:false, file, error}`; only a failure of the enumeration itself
reaches the outer catch and yields `{valid:true}`. -/

/-- The result record of `validateSyntax`. -/
structure SynResult where
  valid : Bool
  file : Option (List Char)
  error : Option (List Char)
deriving DecidableEq

/-- The filter of line 634: ends with `.js` and does not contain
`node_modules`. -/
def isJsTarget (f : List Char) : Bool :=
  ".js".data.isSuffixOf f && !(includesSub "node_modules".data f)

/-- `path.relative(root, f)` for an enumerated file, which always lies
below the root. -/
def relativeTo (root f : List Char) : List Char :=
  if (root ++ ['/']).isPrefixOf f then f.drop (root.length + 1) else f

/-- The per-file loop of lines 636-643: first checker error wins. -/
def checkLoop (check : List Char → Except (List Char) Unit) (root : List Char) :
    List (List Char) → SynResult
  | [] => ⟨true, none, none⟩
  | f :: rest =>
    match check f with
    | Except.ok _ => checkLoop check root rest
    | Except.error e => ⟨false, some (relativeTo root f), some e⟩

/-- src/orchestrator.js 631-649: `validateSyntax` with enumeration and
per-file check as oracles. -/
def validateSyntax (enumerate : Except (List Char) (List (List Char)))
    (check : List Char → Except (List Char) Unit) (root : List Char) : SynResult :=
  match enumerate with
  | Except.error _ => ⟨true, none, none⟩
  | Except.ok files => checkLoop check root (files.filter isJsTarget)

/-! ## C9 — robust JSON extraction (src/orchestrator.js 571-611)

`extractAndParseJSON` first tries `JSON.parse` on the whole trimmed
response; otherwise it locates the first opening brace or bracket
(whichever comes first), then walks the matching closer backwards from
the end, attempting a parse of each candidate slice.  `JSON.parse` and
`JSON.stringify` are the platform, not repository code: they enter the
embedding as an abstract parse function (and, in the round-trip theorem,
an abstract serialiser constrained by the platform contract). -/

/-- Opening curly brace character. -/
def lbraceChar : Char := Char.ofNat 123

/-- Closing curly brace character. -/
def rbraceChar : Char := Char.ofNat 125

/-- JS `String.prototype.indexOf(c)`: the first index of `c`, if any. -/
def idxOfChar (c : Char) : List Char → Option Nat
  | [] => none
  | x :: rest => if x = c then some 0 else (idxOfChar c rest).map (· + 1)

/-- JS `String.prototype.lastIndexOf(c, fromIdx)`: the greatest index
`i ≤ fromIdx` holding `c`, if any. -/
def lastIdxOfFrom (text : List Char) (c : Char) : Nat → Option Nat
  | 0 => if text.get? 0 = some c then some 0 else none
  | i + 1 => if text.get? (i + 1) = some c then some (i + 1) else lastIdxOfFrom text c i

/-- The failure message of the backward scan. -/
def extractFailMsg : List Char :=
  "Could not extract a valid JSON block from the response.".data

/-- The backward pruning loop of lines 600-608: try the slice ending at
each successive earlier occurrence of the closing marker while it lies
beyond the opening marker.  The fuel is an upper bound on the strictly
decreasing end index, so it never runs out before the loop exits. -/
def scanBack {V : Type} (parse : List Char → Option V) (text : List Char)
    (startIndex : Nat) (endChar : Char) : Nat → Nat → Except (List Char) V
  | 0, _ => Except.error extractFailMsg
  | fuel + 1, lastEnd =>
    if startIndex < lastEnd then
      match parse ((text.drop startIndex).take (lastEnd + 1 - startIndex)) with
      | some v => Except.ok v
      | none =>
        match lastIdxOfFrom text endChar (lastEnd - 1) with
        | some l => scanBack parse text startIndex endChar fuel l
        | none => Except.error extractFailMsg
    else Except.error extractFailMsg

/-- src/orchestrator.js 571-611: the three-stage JSON extractor, with the
platform parser abstract. -/
def extractAndParseJSON {V : Type} (parse : List Char → Option V) (text : List Char) :
    Except (List Char) V :=
  match parse (trimChars text) with
  | some v => Except.ok v
  | none =>
    let firstBrace := idxOfChar lbraceChar text
    let firstBracket := idxOfChar '[' text
    let chosen : Option (Char × Nat) :=
      match firstBrace, firstBracket with
      | some b, some k => if b < k then some (rbraceChar, b) else some (']', k)
      | some b, none => some (rbraceChar, b)
      | none, some k => some (']', k)
      | none, none => none
    match chosen with
    | none => Except.error "No JSON markers found in response.".data
    | some (endChar, startIndex) =>
      match lastIdxOfFrom text endChar (text.length - 1) with
      | none => Except.error extractFailMsg
      | some le => scanBack parse text startIndex endChar (le + 2) le

/-- A concrete serialisable value type with its platform pair, used to
witness the round-trip theorem. -/
def stringifyBool : Bool → List Char
  | true => "true".data
  | false => "false".data

/-- The platform parser restricted to the two boolean JSON texts. -/
def parseBool (s : List Char) : Option Bool :=
  if s = "true".data then some true
  else if s = "false".data then some false
  else none

/-! ## C6 — summary extraction (src/orchestrator.js 469-495)

`extractSummary` walks the lines of the response with a `capturing` flag:
a line whose lowercase form contains one of the three markers switches
capture on; while capturing, lines are collected until a fenced code
block starts; while not capturing, up to 5 non-empty lines are collected
as a safety net.  The collected lines are joined and trimmed; a result of
10 chars or fewer falls back to the first 500 chars plus a tag. -/

/-- JS `toLowerCase` per character. -/
def toLowerL (l : List Char) : List Char := l.map Char.toLower

/-- A line whose lowercase form contains one of the three markers. -/
def hasMarker (line : List Char) : Bool :=
  includesSub "summary:".data (toLowerL line)
    || includesSub "findings:".data (toLowerL line)
    || includesSub "criteria:".data (toLowerL line)

/-- `line.trim().startsWith` on the fence delimiter. -/
def isFence (line : List Char) : Bool :=
  "```".data.isPrefixOf (trimChars line)

/-- `line.trim().length > 0`. -/
def lineNonEmpty (line : List Char) : Bool := !(trimChars line).isEmpty

/-- The line loop of src/orchestrator.js 474-491, with the accumulated
`summaryLines` and the `capturing` flag explicit. -/
def summaryGo : List (List Char) → Bool → List (List Char) → List (List Char)
  | [], _, acc => acc
  | line :: rest, capturing, acc =>
    let cap := capturing || hasMarker line
    if cap then
      if isFence line then acc
      else summaryGo rest cap (acc ++ [line])
    else
      if acc.length < 5 && lineNonEmpty line then summaryGo rest cap (acc ++ [line])
      else summaryGo rest cap acc

/-- JS `array.join(newline)`. -/
def joinLines (lines : List (List Char)) : List Char := List.intercalate ['\n'] lines

/-- src/orchestrator.js 469-495: `extractSummary`. -/
def extractSummary (text : List Char) : List Char :=
  let clean := trimChars (joinLines (summaryGo (text.splitOn '\n') false []))
  if 10 < clean.length then clean else text.take 500 ++ "... (truncated)".data

/-- Index of the first line containing a marker, if any. -/
def firstMarkerIdx : List (List Char) → Option Nat
  | [] => none
  | line :: rest => if hasMarker line then some 0 else (firstMarkerIdx rest).map (· + 1)

/-- Compositional description of what the loop collects when it may still
take `k` pre-marker lines: up to `k` non-empty lines before the first
marker line, then everything from the marker line until a fence; without
a marker, the first up to `k` non-empty lines. -/
def capturedFrom (k : Nat) (lines : List (List Char)) : List (List Char) :=
  match firstMarkerIdx lines with
  | some i =>
    ((lines.take i).filter lineNonEmpty).take k
      ++ (lines.drop i).takeWhile (fun l => !isFence l)
  | none => (lines.filter lineNonEmpty).take k

/-- The corrected description of `extractSummary`. -/
def amendedSummary (text : List Char) : List Char :=
  let clean := trimChars (joinLines (capturedFrom 5 (text.splitOn '\n')))
  if 10 < clean.length then clean else text.take 500 ++ "... (truncated)".data

/-- The claim as stated: capture begins only at the marker line (the up
to 5 pre-marker non-empty lines are claimed to appear only when no marker
is present). -/
def claimedSummary (text : List Char) : List Char :=
  let lines := text.splitOn '\n'
  let captured :=
    match firstMarkerIdx lines with
    | some i => (lines.drop i).takeWhile (fun l => !isFence l)
    | none => (lines.filter lineNonEmpty).take 5
  let clean := trimChars (joinLines captured)
  if 10 < clean.length then clean else text.take 500 ++ "... (truncated)".data

/-! ## C10 — iteration bound of `runLoop` (src/orchestrator.js 109-176)

The loop guard is `iteration < maxIterations`; `iteration` is incremented
only on a task-executing pass (line 165) and persisted together with a
`running` status write (line 176).  Stage-completion and split passes
persist the plan without touching the counter or the status;
plan-finished and critical-failure passes write terminal statuses and
break; stop requests break silently.  The loop body is scripted by a list
of per-pass outcomes. -/

/-- Outcome of one pass through the loop body. -/
inductive PassKind
  | stopRequested
  | noActiveStage
  | stageComplete
  | splitTask
  | runTask (valid : Bool) (critical : Bool)
deriving DecidableEq

/-- The store fields runLoop writes: the persisted iteration counter and
the persisted project status. -/
structure StoreState where
  iteration : Nat
  status : String
deriving DecidableEq

/-- Result of a run of the loop: final store, final local counter, the
iteration values persisted by task-executing passes, and whether the loop
exited because the guard `iteration < maxIterations` failed. -/
structure LoopRes where
  store : StoreState
  finalIter : Nat
  persisted : List Nat
  boundExit : Bool
deriving DecidableEq

/-- src/orchestrator.js 109-332: the iteration loop over a script of pass
outcomes.  A task-executing pass increments the counter, persists it with
status `running`, and on success or non-critical cap failure continues
with `retryCount` reset; a critical cap failure writes status `error` and
breaks; plan completion writes status `completed` and breaks; the bound
exit returns the store untouched. -/
def runLoopModel (maxIter maxRetries : Nat) :
    List PassKind → Nat → Nat → StoreState → LoopRes
  | script, iter, rc, store =>
    if maxIter ≤ iter then ⟨store, iter, [], true⟩
    else
      match script with
      | [] => ⟨store, iter, [], false⟩
      | pk :: rest =>
        match pk with
        | PassKind.stopRequested => ⟨store, iter, [], false⟩
        | PassKind.noActiveStage => ⟨⟨store.iteration, "completed"⟩, iter, [], false⟩
        | PassKind.stageComplete => runLoopModel maxIter maxRetries rest iter rc store
        | PassKind.splitTask => runLoopModel maxIter maxRetries rest iter rc store
        | PassKind.runTask valid critical =>
          let iter2 := iter + 1
          let store2 : StoreState := ⟨iter2, "running"⟩
          if valid then
            let r := runLoopModel maxIter maxRetries rest iter2 0 store2
            ⟨r.store, r.finalIter, iter2 :: r.persisted, r.boundExit⟩
          else
            let rc2 := rc + 1
            if maxRetries ≤ rc2 then
              if critical then ⟨⟨iter2, "error"⟩, iter2, [iter2], false⟩
              else
                let r := runLoopModel maxIter maxRetries rest iter2 0 store2
                ⟨r.store, r.finalIter, iter2 :: r.persisted, r.boundExit⟩
            else
              let r := runLoopModel maxIter maxRetries rest iter2 rc2 store2
              ⟨r.store, r.finalIter, iter2 :: r.persisted, r.boundExit⟩

/-! ## Theorems -/

/-- Claim C1: writing a file block resolved against the working directory
never creates a file outside that directory, escaping blocks being skipped
while the rest are applied.  The code violates this: the guard is a raw
string-prefix test, so the block path `../proj2/evil.js` under root
`/home/user/proj` resolves to `/home/user/proj2/evil.js`, passes the
guard because the sibling directory name shares the prefix, and is
written outside the root.  The second conjunct shows the written path is
not within the root; the third shows the intended skip-and-continue
behaviour on a block that fails the guard. -/
theorem runCodex_containment_bug :
    applyBlocks "/home/user/proj".data [("../proj2/evil.js".data, "malicious".data)] =
      [("/home/user/proj2/evil.js".data, "malicious".data)] ∧
    withinRoot "/home/user/proj".data "/home/user/proj2/evil.js".data = false ∧
    applyBlocks "/home/user/proj".data
        [("../../../etc/passwd".data, "x".data), ("ok.txt".data, "y".data)] =
      [("/home/user/proj/ok.txt".data, "y".data)] := by
  refine ⟨by decide, by decide, by decide⟩

/-- Claim C2: when a failed attempt pushes the incremented retryCount to
maxRetriesPerTask, a non-critical story is marked skipped with the last
feedback as skipReason, retryCount is reset to 0, the plan is persisted,
and the loop continues; a critical story triggers rollbackToLastCommit,
the loop stops, and the project status is set to error. -/
theorem maxRetries_skip_or_rollback (maxRetriesPerTask : Nat) (base mult : ℚ)
    (priority feedback : List Char) (st : FailState)
    (h : maxRetriesPerTask ≤ st.retryCount + 1) :
    (priority ≠ "critical".data →
      (failureStep maxRetriesPerTask base mult priority feedback st).1.isSkipped = true ∧
      (failureStep maxRetriesPerTask base mult priority feedback st).1.skipReason
        = some feedback ∧
      (failureStep maxRetriesPerTask base mult priority feedback st).1.retryCount = 0 ∧
      (failureStep maxRetriesPerTask base mult priority feedback st).2.1
        = LoopControl.continueLoop ∧
      FailAction.persistPlanDisk
        ∈ (failureStep maxRetriesPerTask base mult priority feedback st).2.2 ∧
      FailAction.persistPlanStore
        ∈ (failureStep maxRetriesPerTask base mult priority feedback st).2.2) ∧
    (priority = "critical".data →
      FailAction.rollback
        ∈ (failureStep maxRetriesPerTask base mult priority feedback st).2.2 ∧
      (failureStep maxRetriesPerTask base mult priority feedback st).2.1
        = LoopControl.breakLoop ∧
      (failureStep maxRetriesPerTask base mult priority feedback st).1.isRunning = false ∧
      FailAction.saveStatusError
        ∈ (failureStep maxRetriesPerTask base mult priority feedback st).2.2) := by
  constructor
  · intro hp
    simp [failureStep, h, hp]
  · intro hp
    simp [failureStep, h, hp]

/-- Witness for C2: concrete non-critical story at the retry cap. -/
theorem maxRetries_skip_or_rollback_witness :
    (failureStep 2 3000 (5/4) "standard".data "needs much more work here".data
        ⟨1, none, false, none, true⟩).1.isSkipped = true ∧
    (failureStep 2 3000 (5/4) "standard".data "needs much more work here".data
        ⟨1, none, false, none, true⟩).1.skipReason
      = some "needs much more work here".data ∧
    (failureStep 2 3000 (5/4) "standard".data "needs much more work here".data
        ⟨1, none, false, none, true⟩).1.retryCount = 0 ∧
    (failureStep 2 3000 (5/4) "standard".data "needs much more work here".data
        ⟨1, none, false, none, true⟩).2.1 = LoopControl.continueLoop ∧
    FailAction.persistPlanDisk
      ∈ (failureStep 2 3000 (5/4) "standard".data "needs much more work here".data
        ⟨1, none, false, none, true⟩).2.2 ∧
    FailAction.persistPlanStore
      ∈ (failureStep 2 3000 (5/4) "standard".data "needs much more work here".data
        ⟨1, none, false, none, true⟩).2.2 :=
  (maxRetries_skip_or_rollback 2 3000 (5/4) "standard".data
    "needs much more work here".data ⟨1, none, false, none, true⟩ (by decide)).1
    (by decide)

/-- Claim C7: the wait before retry n equals
baseSleepTime * multiplier ^ (n - 1), and for multiplier at least 1 the
waits are monotonically non-decreasing in n. -/
theorem backoff_formula_monotone (base mult : ℚ) (n : Nat)
    (hn : 1 ≤ n) (hm : 1 ≤ mult) (hb : 0 ≤ base) :
    waitTime base mult n = base * mult ^ (n - 1) ∧
    waitTime base mult n ≤ waitTime base mult (n + 1) := by
  refine ⟨rfl, ?_⟩
  unfold waitTime
  have h1 : n - 1 ≤ n + 1 - 1 := by omega
  exact mul_le_mul_of_nonneg_left (pow_le_pow_right₀ hm h1) hb

/-- Witness for C7 at the default settings (base 3000 ms, multiplier
1.25), first retry. -/
theorem backoff_formula_monotone_witness :
    waitTime 3000 (5/4) 1 = 3000 * (5/4 : ℚ) ^ (1 - 1) ∧
    waitTime 3000 (5/4) 1 ≤ waitTime 3000 (5/4) (1 + 1) :=
  backoff_formula_monotone 3000 (5/4) 1 (by norm_num) (by norm_num) (by norm_num)

/-- Counterexample to claim C4: with a configured bot, two consecutive
calls to askForApproval leave the first call suspended on future 0, yet
after the second call no resolution at all has been performed: the
superseded future is not resolved to false (resolutions stays empty). -/
theorem askForApproval_supersede_counterexample :
    (askForApproval true ⟨true, 0, none, []⟩).2 = AskResult.pending 0 ∧
    ((askForApproval true (askForApproval true ⟨true, 0, none, []⟩).1).1).resolutions
      = [] ∧
    ((askForApproval true (askForApproval true ⟨true, 0, none, []⟩).1).1).approvalResolve
      = some 1 := by
  refine ⟨rfl, rfl, rfl⟩

/-- Claim C4 amended: at most one resolver is retained per process — a new
askForApproval overwrites the resolver slot with the new future — but the
superseded request is simply abandoned: its future is never resolved
(resolutions are unchanged), rather than being resolved to false. -/
theorem askForApproval_supersede_amended (sendOk : Bool) (s : OracleState)
    (hbot : s.botConfigured = true) (hsend : sendOk = true) :
    (askForApproval sendOk s).1.resolutions = s.resolutions ∧
    (askForApproval sendOk s).1.approvalResolve = some s.nextId ∧
    (askForApproval sendOk s).2 = AskResult.pending s.nextId := by
  subst hsend
  simp [askForApproval, hbot]

/-- Witness for the amended C4 at a state with a pending earlier request. -/
theorem askForApproval_supersede_amended_witness :
    (askForApproval true ⟨true, 7, some 6, [(2, true)]⟩).1.resolutions = [(2, true)] ∧
    (askForApproval true ⟨true, 7, some 6, [(2, true)]⟩).1.approvalResolve = some 7 ∧
    (askForApproval true ⟨true, 7, some 6, [(2, true)]⟩).2 = AskResult.pending 7 :=
  askForApproval_supersede_amended true ⟨true, 7, some 6, [(2, true)]⟩ rfl rfl

/-- Counterexample to claim C3: in a concrete successful iteration
(reviewer enabled, no self-heal, no human review) both the store update
and the VCS commit occur, but the commit does not precede the store
update — the source updates the store (line 284) before committing
(line 285). -/
theorem iteration_order_counterexample :
    (iterationTrace true true true true false false true).contains
      PipeEvent.storeUpdate = true ∧
    (iterationTrace true true true true false false true).contains
      PipeEvent.vcsCommit = true ∧
    ¬ (iterationTrace true true true true false false true).indexOf PipeEvent.vcsCommit
        < (iterationTrace true true true true false false true).indexOf
          PipeEvent.storeUpdate := by
  refine ⟨by decide, by decide, by decide⟩

/-- Claim C3 amended: within a successful iteration with the reviewer
enabled, file writes precede the syntax gate, which precedes the reviewer
invocation, which precedes the Store update, which precedes the VCS
commit (the claim had the last two in the opposite order). -/
theorem iteration_order_amended (syntaxValid useReviewerAgent reviewerPasses
    devPromiseMet tgEnabled useHumanReview approvalGranted : Bool)
    (hrev : useReviewerAgent = true)
    (hvalid : finalValid useReviewerAgent reviewerPasses devPromiseMet tgEnabled
      useHumanReview approvalGranted = true) :
    (iterationTrace syntaxValid useReviewerAgent reviewerPasses devPromiseMet
        tgEnabled useHumanReview approvalGranted).indexOf PipeEvent.fileWrites
      < (iterationTrace syntaxValid useReviewerAgent reviewerPasses devPromiseMet
        tgEnabled useHumanReview approvalGranted).indexOf PipeEvent.syntaxGate ∧
    (iterationTrace syntaxValid useReviewerAgent reviewerPasses devPromiseMet
        tgEnabled useHumanReview approvalGranted).indexOf PipeEvent.syntaxGate
      < (iterationTrace syntaxValid useReviewerAgent reviewerPasses devPromiseMet
        tgEnabled useHumanReview approvalGranted).indexOf PipeEvent.reviewerRun ∧
    (iterationTrace syntaxValid useReviewerAgent reviewerPasses devPromiseMet
        tgEnabled useHumanReview approvalGranted).indexOf PipeEvent.reviewerRun
      < (iterationTrace syntaxValid useReviewerAgent reviewerPasses devPromiseMet
        tgEnabled useHumanReview approvalGranted).indexOf PipeEvent.storeUpdate ∧
    (iterationTrace syntaxValid useReviewerAgent reviewerPasses devPromiseMet
        tgEnabled useHumanReview approvalGranted).indexOf PipeEvent.storeUpdate
      < (iterationTrace syntaxValid useReviewerAgent reviewerPasses devPromiseMet
        tgEnabled useHumanReview approvalGranted).indexOf PipeEvent.vcsCommit := by
  revert hvalid hrev
  revert syntaxValid useReviewerAgent reviewerPasses devPromiseMet tgEnabled
    useHumanReview approvalGranted
  decide

/-- Witness for the amended C3: successful iteration, reviewer enabled,
self-heal triggered, human approval granted. -/
theorem iteration_order_amended_witness :
    (iterationTrace false true true true true true true).indexOf PipeEvent.fileWrites
      < (iterationTrace false true true true true true true).indexOf
        PipeEvent.syntaxGate ∧
    (iterationTrace false true true true true true true).indexOf PipeEvent.syntaxGate
      < (iterationTrace false true true true true true true).indexOf
        PipeEvent.reviewerRun ∧
    (iterationTrace false true true true true true true).indexOf PipeEvent.reviewerRun
      < (iterationTrace false true true true true true true).indexOf
        PipeEvent.storeUpdate ∧
    (iterationTrace false true true true true true true).indexOf PipeEvent.storeUpdate
      < (iterationTrace false true true true true true true).indexOf
        PipeEvent.vcsCommit :=
  iteration_order_amended false true true true true true true rfl (by decide)

/-- Helper: trimming the fix-prompt template collapses exactly the outer
newlines when the interpolated prompt starts with a non-whitespace
character and the appended block ends in a period. -/
theorem trimChars_wrap (p B : List Char) (c : Char) (hc : c.isWhitespace = false)
    (hB : ∃ F, B = F ++ ['.']) :
    trimChars ('\n' :: ((c :: p) ++ B ++ ['\n'])) = (c :: p) ++ B := by
  obtain ⟨F, rfl⟩ := hB
  have h1 : Char.isWhitespace '\n' = true := by decide
  have h2 : Char.isWhitespace '.' = false := by decide
  unfold trimChars
  simp only [List.cons_append, List.append_assoc, List.dropWhile_cons, h1, hc]
  simp only [if_true, Bool.false_eq_true, if_false]
  simp [List.cons_append, List.append_assoc, List.reverse_append, List.dropWhile_cons, h1,
    h2]

/-- Helper: the fix prompt equals the developer prompt with the
SELF-HEALING block appended, for prompts starting with a non-whitespace
character (developer prompts are themselves trimmed template literals). -/
theorem fixPrompt_append (p f e : List Char) (c : Char) (p' : List Char)
    (hp : p = c :: p') (hc : c.isWhitespace = false) :
    fixPrompt p f e = p ++ selfHealBlock f e := by
  subst hp
  have htail :
      ("\n\nINSTRUCTION: Fix this syntax error immediately and complete the task.").data
        = ("\n\nINSTRUCTION: Fix this syntax error immediately and complete the task").data
          ++ ['.'] := by decide
  refine trimChars_wrap p' (selfHealBlock f e) c hc
    ⟨"\n---\n⚠️ SELF-HEALING UPDATE:\nThe previous run introduced a syntax error in **".data
      ++ f ++ "**:\nError: ".data ++ e
      ++ ("\n\nINSTRUCTION: Fix this syntax error immediately and complete the task").data,
      ?_⟩
  simp [selfHealBlock, htail, List.append_assoc]

/-- Claim C5: on an invalid syntax verdict the developer is re-invoked
exactly once in the same iteration, with a prompt equal to the original
developer prompt appended with the SELF-HEALING block naming the
offending file and error; the second result replaces devResult, and
retryCount is untouched by the self-heal. -/
theorem selfHeal_single_reinvoke (oracle : List Char → List Char) (sc : SynCheck)
    (devPrompt : List Char) (rc : Nat) (c : Char) (p' : List Char)
    (hv : sc.valid = false) (hp : devPrompt = c :: p') (hc : c.isWhitespace = false) :
    devPhase oracle sc devPrompt rc =
      ⟨oracle (devPrompt ++ selfHealBlock sc.file sc.error),
        [devPrompt, devPrompt ++ selfHealBlock sc.file sc.error], rc⟩ := by
  have hfp := fixPrompt_append devPrompt sc.file sc.error c p' hp hc
  simp [devPhase, hv, hfp]

/-- Witness for C5 at a concrete failing syntax verdict. -/
theorem selfHeal_single_reinvoke_witness :
    devPhase (fun l => l) ⟨false, "app.js".data, "Unexpected token".data⟩
        "DEV PROMPT".data 2 =
      ⟨"DEV PROMPT".data ++ selfHealBlock "app.js".data "Unexpected token".data,
        ["DEV PROMPT".data,
          "DEV PROMPT".data ++ selfHealBlock "app.js".data "Unexpected token".data],
        2⟩ :=
  selfHeal_single_reinvoke (fun l => l) ⟨false, "app.js".data, "Unexpected token".data⟩
    "DEV PROMPT".data 2 'D' "EV PROMPT".data rfl rfl (by decide)

/-- Counterexample to claim C8: when the check infrastructure itself
fails — here `node --check` is unavailable, so the checker errors on the
first file for a reason that is not a syntax error — the result is not
fail-open `{valid:true}` but `{valid:false}` naming that file: the inner
catch cannot distinguish tool failure from syntax failure, and only
enumeration failure reaches the fail-open outer catch. -/
theorem validateSyntax_failopen_counterexample :
    validateSyntax (Except.ok ["/r/a.js".data])
        (fun _ => Except.error "node: command not found".data) "/r".data
      = ⟨false, some "a.js".data, some "node: command not found".data⟩ := by
  decide

/-- Claim C8 amended: validateSyntax returns `{valid:false, file, error}`
naming the first enumerated `.js` file outside `node_modules` whose
per-file check fails — whether the failure is a syntax error or a failure
of the check infrastructure itself — and returns `{valid:true}` both when
every such file passes and when the enumeration fails (the fail-open case
covers only enumeration failure). -/
theorem validateSyntax_amended (enumerate : Except (List Char) (List (List Char)))
    (check : List Char → Except (List Char) Unit) (root : List Char) :
    (∀ e, enumerate = Except.error e →
      validateSyntax enumerate check root = ⟨true, none, none⟩) ∧
    (∀ files, enumerate = Except.ok files →
      (∀ f ∈ files.filter isJsTarget, check f = Except.ok ()) →
      validateSyntax enumerate check root = ⟨true, none, none⟩) ∧
    (∀ files good f bad e, enumerate = Except.ok files →
      files.filter isJsTarget = good ++ f :: bad →
      (∀ g ∈ good, check g = Except.ok ()) → check f = Except.error e →
      validateSyntax enumerate check root
        = ⟨false, some (relativeTo root f), some e⟩) := by
  have hall : ∀ l : List (List Char), (∀ f ∈ l, check f = Except.ok ()) →
      checkLoop check root l = ⟨true, none, none⟩ := by
    intro l
    induction l with
    | nil => intro _; rfl
    | cons g rest ih =>
      intro hok
      have hg := hok g (by simp)
      rw [checkLoop, hg]
      exact ih fun x hx => hok x (by simp [hx])
  have hfirst : ∀ (good : List (List Char)) (f : List Char) (bad : List (List Char))
      (e : List Char), (∀ g ∈ good, check g = Except.ok ()) →
      check f = Except.error e →
      checkLoop check root (good ++ f :: bad)
        = ⟨false, some (relativeTo root f), some e⟩ := by
    intro good
    induction good with
    | nil =>
      intro f bad e _ hfe
      rw [List.nil_append, checkLoop, hfe]
    | cons g rest ih =>
      intro f bad e hgood hfe
      have hg := hgood g (by simp)
      rw [List.cons_append, checkLoop, hg]
      exact ih f bad e (fun x hx => hgood x (by simp [hx])) hfe
  refine ⟨?_, ?_, ?_⟩
  · intro e he
    simp [validateSyntax, he]
  · intro files hf h
    subst hf
    exact hall _ h
  · intro files good f bad e hf hsplit hgood hfe
    subst hf
    simp only [validateSyntax, hsplit]
    exact hfirst good f bad e hgood hfe

/-- Witness for the amended C8: one passing file, then a file with a
syntax error, on a concrete enumeration. -/
theorem validateSyntax_amended_witness :
    validateSyntax (Except.ok ["/r/ok.js".data, "/r/bad.js".data, "/r/x.css".data])
        (fun f => if f = "/r/bad.js".data
          then Except.error "SyntaxError".data else Except.ok ()) "/r".data
      = ⟨false, some "bad.js".data, some "SyntaxError".data⟩ :=
  (validateSyntax_amended (Except.ok ["/r/ok.js".data, "/r/bad.js".data, "/r/x.css".data])
      (fun f => if f = "/r/bad.js".data
        then Except.error "SyntaxError".data else Except.ok ()) "/r".data).2.2
    ["/r/ok.js".data, "/r/bad.js".data, "/r/x.css".data]
    ["/r/ok.js".data] "/r/bad.js".data [] "SyntaxError".data rfl (by decide)
    (by intro g hg; rw [List.mem_singleton] at hg; subst hg; rfl) rfl

/-- Claim C9: for every JSON-serialisable object, extracting from its
serialisation returns the object: the platform contract guarantees that
serialisation has no outer whitespace and that parsing inverts it, and
stage 1 of the extractor then succeeds on the whole trimmed text. -/
theorem extractAndParseJSON_leftInverse {V : Type} (parse : List Char → Option V)
    (stringify : V → List Char) (v : V)
    (h1 : trimChars (stringify v) = stringify v)
    (h2 : parse (stringify v) = some v) :
    extractAndParseJSON parse (stringify v) = Except.ok v := by
  unfold extractAndParseJSON
  rw [h1, h2]

/-- Witness for C9 with the boolean platform pair. -/
theorem extractAndParseJSON_leftInverse_witness :
    extractAndParseJSON parseBool (stringifyBool true) = Except.ok true :=
  extractAndParseJSON_leftInverse parseBool stringifyBool true (by decide) (by decide)

/-- Helper: once capturing, the loop collects lines until a fence. -/
theorem summaryGo_capturing (lines : List (List Char)) :
    ∀ acc, summaryGo lines true acc = acc ++ lines.takeWhile (fun l => !isFence l) := by
  induction lines with
  | nil => intro acc; simp [summaryGo]
  | cons line rest ih =>
    intro acc
    cases hf : isFence line with
    | true => simp [summaryGo, hf, List.takeWhile_cons]
    | false => simp [summaryGo, hf, ih, List.takeWhile_cons, List.append_assoc]

/-- Helper: `capturedFrom` when the head line carries a marker. -/
theorem capturedFrom_marker (k : Nat) (line : List Char) (rest : List (List Char))
    (hm : hasMarker line = true) :
    capturedFrom k (line :: rest)
      = (line :: rest).takeWhile (fun l => !isFence l) := by
  simp [capturedFrom, firstMarkerIdx, hm]

/-- Helper: `capturedFrom` absorbs a markerless non-empty head line while
capacity remains. -/
theorem capturedFrom_push (k : Nat) (line : List Char) (rest : List (List Char))
    (hm : hasMarker line = false) (hne : lineNonEmpty line = true) (hk : 0 < k) :
    capturedFrom k (line :: rest) = line :: capturedFrom (k - 1) rest := by
  obtain ⟨k', rfl⟩ : ∃ k', k = k' + 1 := ⟨k - 1, by omega⟩
  unfold capturedFrom
  rw [firstMarkerIdx]
  simp only [hm, if_false, Bool.false_eq_true]
  cases hj : firstMarkerIdx rest with
  | none =>
    simp [List.filter_cons, hne]
  | some j =>
    simp [List.filter_cons, hne, List.take_succ_cons, List.drop_succ_cons]

/-- Helper: `capturedFrom` drops a markerless blank head line. -/
theorem capturedFrom_skip (k : Nat) (line : List Char) (rest : List (List Char))
    (hm : hasMarker line = false) (hne : lineNonEmpty line = false) :
    capturedFrom k (line :: rest) = capturedFrom k rest := by
  unfold capturedFrom
  rw [firstMarkerIdx]
  simp only [hm, if_false, Bool.false_eq_true]
  cases hj : firstMarkerIdx rest with
  | none => simp [List.filter_cons, hne]
  | some j => simp [List.filter_cons, hne, List.take_succ_cons, List.drop_succ_cons]

/-- Helper: `capturedFrom` ignores a markerless head line at exhausted
capacity. -/
theorem capturedFrom_zero (line : List Char) (rest : List (List Char))
    (hm : hasMarker line = false) :
    capturedFrom 0 (line :: rest) = capturedFrom 0 rest := by
  unfold capturedFrom
  rw [firstMarkerIdx]
  simp only [hm, if_false, Bool.false_eq_true]
  cases hj : firstMarkerIdx rest with
  | none => simp
  | some j => simp [List.take_succ_cons, List.drop_succ_cons]

/-- Helper: the single-pass loop of `extractSummary` computes the
compositional `capturedFrom` description. -/
theorem summaryGo_spec (lines : List (List Char)) :
    ∀ acc, summaryGo lines false acc = acc ++ capturedFrom (5 - acc.length) lines := by
  induction lines with
  | nil => intro acc; simp [summaryGo, capturedFrom, firstMarkerIdx]
  | cons line rest ih =>
    intro acc
    cases hm : hasMarker line with
    | true =>
      cases hf : isFence line with
      | true =>
        rw [summaryGo]
        simp only [hm, Bool.false_or, if_true, hf]
        rw [capturedFrom_marker _ _ _ hm]
        simp [List.takeWhile_cons, hf]
      | false =>
        rw [summaryGo]
        simp only [hm, Bool.false_or, if_true, hf, Bool.false_eq_true, if_false]
        rw [summaryGo_capturing, capturedFrom_marker _ _ _ hm]
        simp [List.takeWhile_cons, hf, List.append_assoc]
    | false =>
      cases hp : (acc.length < 5 && lineNonEmpty line) with
      | true =>
        have h5 : acc.length < 5 := by
          have := hp
          simp [Bool.and_eq_true] at this
          exact this.1
        have hne : lineNonEmpty line = true := by
          have := hp
          simp [Bool.and_eq_true] at this
          exact this.2
        rw [summaryGo]
        simp only [hm, Bool.false_or, Bool.or_false, if_false, Bool.false_eq_true, hp,
          if_true]
        rw [ih]
        rw [capturedFrom_push _ _ _ hm hne (by omega)]
        simp [List.append_assoc, List.length_append]
        have harith : 4 - acc.length = 5 - acc.length - 1 := by omega
        rw [harith]
      | false =>
        rw [summaryGo]
        simp only [hm, Bool.false_or, Bool.or_false, if_false, Bool.false_eq_true, hp]
        rw [ih]
        rcases Bool.and_eq_false_iff.mp hp with h | h
        · have h5 : ¬ acc.length < 5 := by
            intro hlt
            rw [decide_eq_true hlt] at h
            exact Bool.noConfusion h
          have hz : 5 - acc.length = 0 := by omega
          rw [hz, capturedFrom_zero _ _ hm]
        · rw [capturedFrom_skip _ _ _ hm h]

/-- Counterexample to claim C6: with a marker on the second line, the
extracted summary also contains the pre-marker line `intro line`, while
the claim says capture starts only at the marker line. -/
theorem extractSummary_claim_counterexample :
    extractSummary "intro line\nSummary: everything looks good\nmore detail here".data
      ≠ claimedSummary
        "intro line\nSummary: everything looks good\nmore detail here".data := by
  decide

/-- Claim C6 amended: extractSummary captures up to the first 5 non-empty
lines preceding the first marker line, then from the marker line forward
until a fenced code block begins; with no marker it captures only the
first up to 5 non-empty lines; and whenever the captured text, joined and
trimmed, is 10 characters or shorter it falls back to the first 500
characters with a truncation tag. -/
theorem extractSummary_amended_eq (text : List Char) :
    extractSummary text = amendedSummary text := by
  unfold extractSummary amendedSummary
  rw [summaryGo_spec (text.splitOn '\n') []]
  simp

/-- Claim C10: starting at or below the bound, the loop performs at most
maxIterations task-executing iterations — every persisted iteration value,
the final counter and the final stored counter stay at most
maxIterations — and when the loop exits because the counter has reached
maxIterations the exit changes no status: the stored status is then
either the `running` written by the iterations themselves or whatever it
was on entry, so a `running` project stays `running` after the silent
exit. -/
theorem runLoopModel_bound (maxIter maxRetries : Nat) (script : List PassKind) :
    ∀ (iter rc : Nat) (store : StoreState), iter ≤ maxIter →
      store.iteration ≤ maxIter →
      (∀ n ∈ (runLoopModel maxIter maxRetries script iter rc store).persisted,
        n ≤ maxIter) ∧
      (runLoopModel maxIter maxRetries script iter rc store).finalIter ≤ maxIter ∧
      (runLoopModel maxIter maxRetries script iter rc store).store.iteration
        ≤ maxIter ∧
      ((runLoopModel maxIter maxRetries script iter rc store).boundExit = true →
        (runLoopModel maxIter maxRetries script iter rc store).store.status
            = "running" ∨
          (runLoopModel maxIter maxRetries script iter rc store).store.status
            = store.status) := by
  induction script with
  | nil =>
    intro iter rc store hi hs
    rw [runLoopModel.eq_def]
    by_cases hb : maxIter ≤ iter
    · simp [hb, hi, hs]
    · simp [hb, hi, hs]
  | cons pk rest ih =>
    intro iter rc store hi hs
    rw [runLoopModel.eq_def]
    by_cases hb : maxIter ≤ iter
    · simp [hb, hi, hs]
    · have hlt : iter < maxIter := by omega
      have hi2 : iter + 1 ≤ maxIter := by omega
      simp only [hb, if_false]
      cases pk with
      | stopRequested => simp [hi, hs]
      | noActiveStage => simp [hi, hs]
      | stageComplete => exact ih iter rc store hi hs
      | splitTask => exact ih iter rc store hi hs
      | runTask valid critical =>
        cases valid with
        | true =>
          have h := ih (iter + 1) 0 ⟨iter + 1, "running"⟩ hi2 hi2
          refine ⟨?_, h.2.1, h.2.2.1, ?_⟩
          · intro n hn
            rcases List.mem_cons.mp hn with rfl | hn2
            · exact hi2
            · exact h.1 n hn2
          · intro hbe
            rcases h.2.2.2 hbe with h1 | h1
            · exact Or.inl h1
            · exact Or.inl h1
        | false =>
          by_cases hmr : maxRetries ≤ rc + 1
          · cases critical with
            | true =>
              simp [hmr, hi2]
            | false =>
              have h := ih (iter + 1) 0 ⟨iter + 1, "running"⟩ hi2 hi2
              simp only [hmr, if_true]
              refine ⟨?_, h.2.1, h.2.2.1, ?_⟩
              · intro n hn
                rcases List.mem_cons.mp hn with rfl | hn2
                · exact hi2
                · exact h.1 n hn2
              · intro hbe
                rcases h.2.2.2 hbe with h1 | h1
                · exact Or.inl h1
                · exact Or.inl h1
          · have h := ih (iter + 1) (rc + 1) ⟨iter + 1, "running"⟩ hi2 hi2
            simp only [hmr, if_false]
            refine ⟨?_, h.2.1, h.2.2.1, ?_⟩
            · intro n hn
              rcases List.mem_cons.mp hn with rfl | hn2
              · exact hi2
              · exact h.1 n hn2
            · intro hbe
              rcases h.2.2.2 hbe with h1 | h1
              · exact Or.inl h1
              · exact Or.inl h1

/-- Witness for C10: three successful task passes under a bound of 2
reach the bound and exit silently with status still `running`. -/
theorem runLoopModel_bound_witness :
    (∀ n ∈ (runLoopModel 2 3 [PassKind.runTask true false, PassKind.runTask true false,
        PassKind.runTask true false] 0 0 ⟨0, "running"⟩).persisted, n ≤ 2) ∧
    (runLoopModel 2 3 [PassKind.runTask true false, PassKind.runTask true false,
        PassKind.runTask true false] 0 0 ⟨0, "running"⟩).finalIter ≤ 2 ∧
    (runLoopModel 2 3 [PassKind.runTask true false, PassKind.runTask true false,
        PassKind.runTask true false] 0 0 ⟨0, "running"⟩).store.iteration ≤ 2 ∧
    ((runLoopModel 2 3 [PassKind.runTask true false, PassKind.runTask true false,
        PassKind.runTask true false] 0 0 ⟨0, "running"⟩).boundExit = true →
      (runLoopModel 2 3 [PassKind.runTask true false, PassKind.runTask true false,
          PassKind.runTask true false] 0 0 ⟨0, "running"⟩).store.status = "running" ∨
        (runLoopModel 2 3 [PassKind.runTask true false, PassKind.runTask true false,
            PassKind.runTask true false] 0 0
          ⟨0, "running"⟩).store.status = (⟨0, "running"⟩ : StoreState).status) :=
  runLoopModel_bound 2 3 [PassKind.runTask true false, PassKind.runTask true false,
    PassKind.runTask true false] 0 0 ⟨0, "running"⟩ (by decide) (by decide)
